import Mathlib

/-!
Verification development for the md_katex Markdown/KaTeX preprocessor
(`md_katex/extension.py`).  Lines of text are modelled as `List Char`;
Python string operations (slicing, `str.index`, `str.rstrip`, negative
indexing) are modelled explicitly, with Python exceptions modelled by
`Except PyErr`.
-/

set_option maxHeartbeats 1000000

/-- Python exceptions that can escape the scanner. -/
inductive PyErr where
  | indexError
  | keyError
  | fuelOut
deriving DecidableEq, Repr

instance {ε α : Type} [DecidableEq ε] [DecidableEq α] : DecidableEq (Except ε α) := fun a b =>
  match a, b with
  | .ok x, .ok y => if h : x = y then .isTrue (by rw [h]) else .isFalse (by simp [h])
  | .error x, .error y => if h : x = y then .isTrue (by rw [h]) else .isFalse (by simp [h])
  | .ok _, .error _ => .isFalse (by simp)
  | .error _, .ok _ => .isFalse (by simp)

/-- The backtick character (U+0060). -/
def backtick : Char := Char.ofNat 96

/-- Characters in Python's whitespace class (`\s` for ASCII, and the set
stripped by `str.strip`/`str.rstrip`/`str.lstrip` with no argument). -/
def pySpace (c : Char) : Bool :=
  c = ' ' || c = '\t' || c = '\n' || c = '\r' || c = '\x0b' || c = '\x0c'

/-- Python `line.rstrip()`: remove trailing whitespace. -/
def rstrip (l : List Char) : List Char :=
  (l.reverse.dropWhile pySpace).reverse

/-- Python slice `line[a:b]` for nonnegative bounds. -/
def pySlice (l : List Char) (a b : Nat) : List Char :=
  (l.take b).drop a

/-- Python slice `line[:i]` with full negative-index semantics. -/
def pySliceUpto (l : List Char) (i : Int) : List Char :=
  if i < 0 then l.take (l.length - min l.length i.natAbs) else l.take i.toNat

/-- Python slice `line[i:]` with full negative-index semantics. -/
def pySliceFrom (l : List Char) (i : Int) : List Char :=
  if i < 0 then l.drop (l.length - min l.length i.natAbs) else l.drop i.toNat

/-- Python indexing `line[i]`: negative indices count from the end; an
out-of-range index yields `none` (an `IndexError` in Python). -/
def pyGetChar (l : List Char) (i : Int) : Option Char :=
  if i < 0 then
    if i.natAbs ≤ l.length then l.get? (l.length - i.natAbs) else none
  else l.get? i.toNat

/-- Does `needle` occur in `line` starting exactly at index `i`? -/
def isSubAt (line needle : List Char) (i : Nat) : Bool :=
  needle.isPrefixOf (line.drop i)

/-- Python `line.index(needle, pos)` / `re.search` for a literal pattern:
the least index `i ≥ pos` at which `needle` occurs, if any. -/
def findSubFrom (line needle : List Char) (pos : Nat) : Option Nat :=
  ((List.range (line.length + 1)).filter
    (fun i => decide (pos ≤ i) && isSubAt line needle i)).head?

/-- Python `needle in line` (substring containment). -/
def containsSub (line needle : List Char) : Bool :=
  (findSubFrom line needle 0).isSome

/-- `DELIM_START_END_MAP` from the source: opening delimiter to its
required closing delimiter. -/
def delimStartEndMap : List (List Char × List Char) :=
  [ ("\\(".data, "\\)".data)
  , ("\\[".data, "\\]".data)
  , ("$`".data, "`$".data)
  , ("$``".data, "``$".data)
  , ("$".data, "$".data)
  , ("$$".data, "$$".data)
  , ("\\f$".data, "$\\f".data)
  , ("\\f[".data, "]\\f".data) ]

/-- Dictionary lookup `DELIM_START_END_MAP[d]`; `none` models `KeyError`. -/
def delimClose (d : List Char) : Option (List Char) :=
  List.lookup d delimStartEndMap

/-- The inline math opening token `\(` (`INLINE_MATH_START_DELIM_RE`). -/
def inlineOpenTok : List Char := "\\(".data

/-- The block math opening token `\[` (`BLOCK_MATH_START_DELIM_RE`). -/
def blockMathOpenTok : List Char := "\\[".data

/-- `expected_math_block_close`, fixed to `\]` in `_iter_lines`. -/
def blockMathCloseTok : List Char := "\\]".data

/-- `CODE_SPAN_DELIM_RE.search(line, pos)`: the leftmost backtick at or after
`pos`, matched greedily as a run of one or two backticks; returns the
match's `(start, end)`. -/
def searchCodeSpanDelim (line : List Char) (pos : Nat) : Option (Nat × Nat) :=
  match findSubFrom line [backtick] pos with
  | none => none
  | some i => if isSubAt line [backtick, backtick] i then some (i, i + 2) else some (i, i + 1)

/-- The characters from the source's `ESCAPE_BACKSLASHES_RE` character
class `[(){}\[\]\*\!`+\-_#]`. -/
def escapableChar (c : Char) : Bool :=
  c = '(' || c = ')' || c = '\x7b' || c = '\x7d' || c = '[' || c = ']' ||
  c = '*' || c = '!' || c = backtick || c = '+' || c = '-' || c = '_' || c = '#'

/-- `escape_backslashes`: replace every occurrence of a backslash followed
by an escapable character with two backslashes and that character
(`re.sub`, left to right, non-overlapping). -/
def escapeBackslashes : List Char → List Char
  | [] => []
  | c :: rest =>
    if c = '\\' then
      match rest with
      | [] => ['\\']
      | d :: rest2 =>
        if escapableChar d then '\\' :: '\\' :: d :: escapeBackslashes rest2
        else '\\' :: escapeBackslashes (d :: rest2)
    else c :: escapeBackslashes rest

/-- `InlineMathItem`: start of the whole match (may be negative via Python
index arithmetic), position after the ending delimiter, and the inner
math text without delimiters. -/
structure InlineMathItem where
  start : Int
  stop : Int
  math : List Char
deriving DecidableEq, Repr

/-- The inner loop of `iter_inline_katex` when no code-span delimiter
remains: repeatedly search for `\(`, then for its closing `\)` anywhere
later in the line; an opening with no close is skipped. -/
def mathScanAll (line : List Char) : Nat → Nat → Except PyErr (List InlineMathItem)
  | 0, _ => .error .fuelOut
  | fuel + 1, mathPos =>
    match findSubFrom line inlineOpenTok mathPos with
    | none => .ok []
    | some i =>
      match delimClose inlineOpenTok with
      | none => .error .keyError
      | some closeTok =>
        match findSubFrom line closeTok (i + 2) with
        | none => mathScanAll line fuel (i + 2)
        | some e =>
          match mathScanAll line fuel (e + 2) with
          | .error err => .error err
          | .ok rest => .ok (⟨(i : Int), ((e : Int) + 2), pySlice line (i + 2) e⟩ :: rest)

/-- The inner loop of `iter_inline_katex` when a code-span delimiter lies
ahead at `searchEnd`: the same bracket search, but an opening whose match
ends beyond `searchEnd` stops the loop.  The search for the closing `\)`
still ranges over the whole line. -/
def mathScanBounded (line : List Char) (searchEnd : Nat) :
    Nat → Nat → Except PyErr (List InlineMathItem)
  | 0, _ => .error .fuelOut
  | fuel + 1, mathPos =>
    if searchEnd < mathPos then .ok []
    else
      match findSubFrom line inlineOpenTok mathPos with
      | none => .ok []
      | some i =>
        if searchEnd < i + 2 then .ok []
        else
          match delimClose inlineOpenTok with
          | none => .error .keyError
          | some closeTok =>
            match findSubFrom line closeTok (i + 2) with
            | none => mathScanBounded line searchEnd fuel (i + 2)
            | some e =>
              match mathScanBounded line searchEnd fuel (e + 2) with
              | .error err => .error err
              | .ok rest => .ok (⟨(i : Int), ((e : Int) + 2), pySlice line (i + 2) e⟩ :: rest)

/-- The outer loop of `iter_inline_katex`: locate the next code-span
delimiter; scan the region before it for bracket math; then resolve the
code span itself, reporting it as GitLab-style math when the characters
at Python indices `start - 1` and `end + 1` are both `$` (note the Python
negative-index and `IndexError` semantics of those two accesses). -/
def outerScan (line : List Char) : Nat → Nat → Except PyErr (List InlineMathItem)
  | 0, _ => .error .fuelOut
  | fuel + 1, pos =>
    match searchCodeSpanDelim line pos with
    | none => mathScanAll line (line.length + 2) pos
    | some (cs, ce) =>
      match mathScanBounded line cs (line.length + 2) pos with
      | .error err => .error err
      | .ok pre =>
        let delim := pySlice line cs ce
        match findSubFrom line delim (cs + delim.length) with
        | none =>
          match outerScan line fuel (cs + delim.length) with
          | .error err => .error err
          | .ok rest => .ok (pre ++ rest)
        | some j =>
          let e := j + delim.length - 1
          match pyGetChar line ((cs : Int) - 1) with
          | none => .error .indexError
          | some c1 =>
            if c1 = '$' then
              match pyGetChar line ((e : Int) + 1) with
              | none => .error .indexError
              | some c2 =>
                if c2 = '$' then
                  match outerScan line fuel (e + delim.length) with
                  | .error err => .error err
                  | .ok rest =>
                    .ok (pre ++ ⟨(cs : Int) - 1, (e : Int) + 2,
                          pySlice line (cs + 1) (e - delim.length + 1)⟩ :: rest)
                else
                  match outerScan line fuel e with
                  | .error err => .error err
                  | .ok rest => .ok (pre ++ rest)
            else
              match outerScan line fuel e with
              | .error err => .error err
              | .ok rest => .ok (pre ++ rest)

/-- `iter_inline_katex(line)`, collected into a list (`list(...)` in the
caller); a raised exception is an `.error`. -/
def iterInlineKatex (line : List Char) : Except PyErr (List InlineMathItem) :=
  outerScan line (line.length + 2) 0

/-- `CODE_FENCE_RE.match(line)`: optional leading whitespace, then a run of
three or more backticks or tildes; returns `(indent, fence run)`. -/
def codeFenceMatch (line : List Char) : Option (List Char × List Char) :=
  let ws := line.takeWhile pySpace
  let rest := line.drop ws.length
  match rest.head? with
  | none => none
  | some c =>
    if c = backtick || c = '~' then
      let r := rest.takeWhile (fun d => d = c)
      if 3 ≤ r.length then some (ws, r) else none
    else none

/-- `CODE_FENCE_MATH_START_RE.match(line)`: as `codeFenceMatch`, but the
literal text `math` must follow the fence run immediately. -/
def codeFenceMathMatch (line : List Char) : Option (List Char × List Char) :=
  let ws := line.takeWhile pySpace
  let rest := line.drop ws.length
  match rest.head? with
  | none => none
  | some c =>
    if c = backtick || c = '~' then
      let r := rest.takeWhile (fun d => d = c)
      if 3 ≤ r.length && "math".data.isPrefixOf (rest.drop r.length) then some (ws, r)
      else none
    else none

/-- `BLOCK_MATH_START_DELIM_RE.match(line)`: the line starts with `\[`
at position 0 (no leading whitespace is skipped by `re.match`). -/
def blockMathStart (line : List Char) : Bool :=
  blockMathOpenTok.isPrefixOf line

/-- Opening text of the block math wrapper produced by the preprocessor. -/
def divOpenHtml : List Char := "<div class=\"math-block\">\\[\n".data

/-- Closing text of the block math wrapper produced by the preprocessor. -/
def divCloseHtml : List Char := "\n\\]</div>".data

/-- `_enclose_fence_block_math`: dedent the interior lines by the opening
fence line's leading-whitespace length, join with newline, right-trim,
and wrap. -/
def encloseFenceBlockMath (ls : List (List Char)) : List Char :=
  let first := ls.headD []
  let indentLen := first.length - (first.dropWhile pySpace).length
  divOpenHtml ++
    rstrip (List.intercalate ['\n'] (((ls.drop 1).dropLast).map (fun l => l.drop indentLen))) ++
    divCloseHtml

/-- `_enclose_non_fence_block_math`: join the interior lines with newline,
right-trim, and wrap. -/
def encloseNonFenceBlockMath (ls : List (List Char)) : List Char :=
  divOpenHtml ++ rstrip (List.intercalate ['\n'] ((ls.drop 1).dropLast)) ++ divCloseHtml

/-- `_enclose_inline_math`: wrap the inner math and apply
`escape_backslashes` to the entire wrapped string. -/
def encloseInlineMath (m : List Char) : List Char :=
  escapeBackslashes ("<span class=\"math-inline\">\\(".data ++ m ++ "\\)</span>".data)

/-- Apply the scanner's replacements to a line in reverse order of start
offset, as `DebaoKatexPreprocessor.run` does. -/
def applyReplacements (line : List Char) (items : List InlineMathItem) : List Char :=
  items.reverse.foldl
    (fun cur it => pySliceUpto cur it.start ++ encloseInlineMath it.math ++ pySliceFrom cur it.stop)
    line

/-- The mutable scan state of `_iter_lines`. -/
structure ScanSt where
  inFenceMath : Bool
  inFence : Bool
  inMathBlock : Bool
  expectedClose : List Char
  buffer : List (List Char)
deriving DecidableEq, Repr

/-- The initial scan state of `_iter_lines`. -/
def initSt : ScanSt := ⟨false, false, false, "```".data, []⟩

/-- One iteration of the `for line in lines` loop of `_iter_lines`:
returns the updated state and the lines yielded for this input line. -/
def step (st : ScanSt) (line : List Char) : Except PyErr (ScanSt × List (List Char)) :=
  if st.inFence then
    if rstrip line == st.expectedClose then .ok ({ st with inFence := false }, [line])
    else .ok (st, [line])
  else if st.inFenceMath then
    if rstrip line == st.expectedClose then
      .ok ({ st with inFenceMath := false, buffer := [] },
           [encloseFenceBlockMath (st.buffer ++ [line])])
    else .ok ({ st with buffer := st.buffer ++ [line] }, [])
  else if st.inMathBlock then
    if containsSub line blockMathCloseTok then
      .ok ({ st with inMathBlock := false, buffer := [] },
           [encloseNonFenceBlockMath (st.buffer ++ [line])])
    else .ok ({ st with buffer := st.buffer ++ [line] }, [])
  else
    match codeFenceMathMatch line with
    | some pr =>
      .ok ({ st with inFenceMath := true, expectedClose := pr.1 ++ pr.2, buffer := st.buffer ++ [line] }, [])
    | none =>
      match codeFenceMatch line with
      | some pr => .ok ({ st with inFence := true, expectedClose := pr.1 ++ pr.2 }, [line])
      | none =>
        if blockMathStart line then
          match delimClose blockMathOpenTok with
          | none => .error .keyError
          | some tok =>
            .ok ({ st with inMathBlock := true, expectedClose := tok, buffer := st.buffer ++ [line] }, [])
        else
          match iterInlineKatex line with
          | .error e => .error e
          | .ok items => .ok (st, [applyReplacements line items])

/-- The whole `for` loop of `_iter_lines` followed by the final flush of
any unclosed buffered block. -/
def iterLines (st : ScanSt) : List (List Char) → Except PyErr (List (List Char))
  | [] => .ok st.buffer
  | l :: rest =>
    match step st l with
    | .error e => .error e
    | .ok (st', out) =>
      match iterLines st' rest with
      | .error e => .error e
      | .ok tail => .ok (out ++ tail)

/-- `DebaoKatexPreprocessor.run`: the transform over a whole document. -/
def run (lines : List (List Char)) : Except PyErr (List (List Char)) :=
  iterLines initSt lines

/-! ## Helper lemmas -/

/-- `escapeBackslashes` leaves a backslash-free prefix untouched. -/
theorem escape_append_no_bs : ∀ (l s : List Char), (∀ c ∈ l, c ≠ '\\') →
    escapeBackslashes (l ++ s) = l ++ escapeBackslashes s := by
  intro l
  induction l with
  | nil => intro s _; rfl
  | cons a t ih =>
    intro s h
    have ha : ¬(a = '\\') := h a (List.mem_cons_self a t)
    have ht : ∀ c ∈ t, c ≠ '\\' := fun c hc => h c (List.mem_cons_of_mem a hc)
    rw [List.cons_append]
    have hstep : escapeBackslashes (a :: (t ++ s)) = a :: escapeBackslashes (t ++ s) := by
      rw [escapeBackslashes.eq_def]
      simp only [if_neg ha]
    rw [hstep, ih s ht, List.cons_append]

/-- `escapeBackslashes` is the identity on backslash-free text. -/
theorem escape_no_bs (l : List Char) (h : ∀ c ∈ l, c ≠ '\\') :
    escapeBackslashes l = l := by
  have := escape_append_no_bs l [] h
  simpa [escapeBackslashes] using this

/-- `escapeBackslashes` doubles a backslash followed by an escapable char. -/
theorem escape_bs_escapable (d : Char) (rest : List Char) (hd : escapableChar d = true) :
    escapeBackslashes ('\\' :: d :: rest) = '\\' :: '\\' :: d :: escapeBackslashes rest := by
  simp [escapeBackslashes, hd]

/-- Dropping the last element of a list with an appended singleton. -/
theorem dropLast_append_singleton (l : List (List Char)) (a : List Char) :
    (l ++ [a]).dropLast = l := by
  simp

/-- The leading-whitespace length computed by `len(x) - len(x.lstrip())`
equals the length of the `takeWhile` prefix. -/
theorem indentLen_eq (l : List Char) :
    l.length - (l.dropWhile pySpace).length = (l.takeWhile pySpace).length := by
  have h := congrArg List.length (List.takeWhile_append_dropWhile pySpace l)
  rw [List.length_append] at h
  omega

/-- `rstrip` does not change a list ending in a non-whitespace character. -/
theorem rstrip_append_singleton (l : List Char) (c : Char) (hc : pySpace c = false) :
    rstrip (l ++ [c]) = l ++ [c] := by
  unfold rstrip
  rw [List.reverse_append]
  simp only [List.reverse_cons, List.reverse_nil, List.nil_append, List.singleton_append]
  rw [List.dropWhile_cons_of_neg (by simp [hc])]
  simp

/-- `rstrip` does not change a list ending in a nonempty run of a
non-whitespace character. -/
theorem rstrip_append_replicate (ws : List Char) (c : Char) (k : Nat) (hc : pySpace c = false) :
    rstrip (ws ++ List.replicate (k + 1) c) = ws ++ List.replicate (k + 1) c := by
  rw [List.replicate_succ' k c, ← List.append_assoc]
  exact rstrip_append_singleton (ws ++ List.replicate k c) c hc

/-- A line starting with `\[` matches neither fence regex. -/
theorem blockMathStart_no_fence (line : List Char) (h : blockMathStart line = true) :
    codeFenceMathMatch line = none ∧ codeFenceMatch line = none := by
  unfold blockMathStart blockMathOpenTok at h
  obtain ⟨t, ht⟩ := List.isPrefixOf_iff_prefix.mp h
  have hline : line = '\\' :: '[' :: t := by
    rw [← ht]; rfl
  subst hline
  constructor <;> · simp [codeFenceMathMatch, codeFenceMatch, pySpace, backtick]

/-- Unfolding one `iterLines` iteration when the step succeeds. -/
theorem iterLines_cons_ok (st st' : ScanSt) (l : List Char) (out : List (List Char))
    (rest : List (List Char)) (h : step st l = .ok (st', out)) :
    iterLines st (l :: rest) =
      match iterLines st' rest with
      | .error e => .error e
      | .ok tail => .ok (out ++ tail) := by
  rw [iterLines, h]

/-- The error-propagating match with an empty yield is the identity. -/
theorem match_except_id (x : Except PyErr (List (List Char))) :
    (match x with
     | .error e => .error e
     | .ok tail => .ok (([] : List (List Char)) ++ tail)) = x := by
  cases x <;> simp

/-- In the `Normal` state, a math-fence opening line transitions to
`InFenceMath`, buffers the line, and records its close. -/
theorem step_fenceMath_open (st : ScanSt) (line ws r : List Char)
    (h1 : st.inFence = false) (h2 : st.inFenceMath = false) (h3 : st.inMathBlock = false)
    (hm : codeFenceMathMatch line = some (ws, r)) :
    step st line = .ok ({ st with inFenceMath := true, expectedClose := ws ++ r, buffer := st.buffer ++ [line] }, []) := by
  simp [step, h1, h2, h3, hm]

/-- In the `InFenceMath` state, a non-closing line is buffered. -/
theorem step_fenceMath_append (st : ScanSt) (line : List Char)
    (h1 : st.inFence = false) (h2 : st.inFenceMath = true)
    (h3 : (rstrip line == st.expectedClose) = false) :
    step st line = .ok ({ st with buffer := st.buffer ++ [line] }, []) := by
  simp [step, h1, h2, h3]

/-- In the `InFenceMath` state, a closing line wraps the buffer. -/
theorem step_fenceMath_close (st : ScanSt) (line : List Char)
    (h1 : st.inFence = false) (h2 : st.inFenceMath = true)
    (h3 : (rstrip line == st.expectedClose) = true) :
    step st line = .ok ({ st with inFenceMath := false, buffer := [] },
      [encloseFenceBlockMath (st.buffer ++ [line])]) := by
  simp [step, h1, h2, h3]

/-- In the `Normal` state, a `\[` line transitions to `InBracketBlock`
and buffers the line. -/
theorem step_mathBlock_open (st : ScanSt) (line : List Char)
    (h1 : st.inFence = false) (h2 : st.inFenceMath = false) (h3 : st.inMathBlock = false)
    (hb : blockMathStart line = true) :
    step st line = .ok ({ st with inMathBlock := true, expectedClose := blockMathCloseTok, buffer := st.buffer ++ [line] }, []) := by
  obtain ⟨hf1, hf2⟩ := blockMathStart_no_fence line hb
  simp [step, h1, h2, h3, hf1, hf2, hb]
  rfl

/-- In the `InBracketBlock` state, a line without `\]` is buffered. -/
theorem step_mathBlock_append (st : ScanSt) (line : List Char)
    (h1 : st.inFence = false) (h2 : st.inFenceMath = false) (h3 : st.inMathBlock = true)
    (hc : containsSub line blockMathCloseTok = false) :
    step st line = .ok ({ st with buffer := st.buffer ++ [line] }, []) := by
  simp [step, h1, h2, h3, hc]

/-- In the `InBracketBlock` state, a line containing `\]` wraps the buffer. -/
theorem step_mathBlock_close (st : ScanSt) (line : List Char)
    (h1 : st.inFence = false) (h2 : st.inFenceMath = false) (h3 : st.inMathBlock = true)
    (hc : containsSub line blockMathCloseTok = true) :
    step st line = .ok ({ st with inMathBlock := false, buffer := [] },
      [encloseNonFenceBlockMath (st.buffer ++ [line])]) := by
  simp [step, h1, h2, h3, hc]

/-- While `InFenceMath`, a run of non-closing lines only accumulates into
the buffer. -/
theorem iterLines_fenceMath_accum (interior : List (List Char)) :
    ∀ (st : ScanSt) (rest : List (List Char)), st.inFence = false → st.inFenceMath = true →
    (∀ l ∈ interior, (rstrip l == st.expectedClose) = false) →
    iterLines st (interior ++ rest) = iterLines { st with buffer := st.buffer ++ interior } rest := by
  induction interior with
  | nil => intro st rest _ _ _; simp
  | cons a t ih =>
    intro st rest h1 h2 h3
    have ha := h3 a (List.mem_cons_self a t)
    rw [List.cons_append,
      iterLines_cons_ok st { st with buffer := st.buffer ++ [a] } a [] (t ++ rest)
        (step_fenceMath_append st a h1 h2 ha)]
    have ht : ∀ l ∈ t, (rstrip l == ({ st with buffer := st.buffer ++ [a] } : ScanSt).expectedClose) = false :=
      fun l hl => h3 l (List.mem_cons_of_mem a hl)
    rw [ih { st with buffer := st.buffer ++ [a] } rest h1 h2 ht, match_except_id]
    simp [List.append_assoc]

/-- While `InBracketBlock`, a run of lines without `\]` only accumulates
into the buffer. -/
theorem iterLines_mathBlock_accum (interior : List (List Char)) :
    ∀ (st : ScanSt) (rest : List (List Char)), st.inFence = false → st.inFenceMath = false →
    st.inMathBlock = true →
    (∀ l ∈ interior, containsSub l blockMathCloseTok = false) →
    iterLines st (interior ++ rest) = iterLines { st with buffer := st.buffer ++ interior } rest := by
  induction interior with
  | nil => intro st rest _ _ _ _; simp
  | cons a t ih =>
    intro st rest h1 h2 h3 h4
    have ha := h4 a (List.mem_cons_self a t)
    rw [List.cons_append,
      iterLines_cons_ok st { st with buffer := st.buffer ++ [a] } a [] (t ++ rest)
        (step_mathBlock_append st a h1 h2 h3 ha)]
    have ht : ∀ l ∈ t, containsSub l blockMathCloseTok = false :=
      fun l hl => h4 l (List.mem_cons_of_mem a hl)
    rw [ih { st with buffer := st.buffer ++ [a] } rest h1 h2 h3 ht, match_except_id]
    simp [List.append_assoc]

/-- The indent group of a math-fence match is the line's leading
whitespace. -/
theorem codeFenceMathMatch_ws (line ws r : List Char)
    (h : codeFenceMathMatch line = some (ws, r)) : ws = line.takeWhile pySpace := by
  simp only [codeFenceMathMatch] at h
  split at h
  · simp at h
  · split at h
    · split at h
      · simp only [Option.some.injEq, Prod.mk.injEq] at h
        exact h.1.symm
      · simp at h
    · simp at h

/-- C8: a fenced math block that closes collapses the buffered range to a
single output line wrapping the interior lines, dedented by the opening
fence's indent, joined by newline and right-trimmed, with no
backslash-escaping. -/
theorem claim_c8_fence_math_block (openL close : List Char) (interior : List (List Char))
    (ws r : List Char)
    (hopen : codeFenceMathMatch openL = some (ws, r))
    (hint : ∀ l ∈ interior, rstrip l ≠ ws ++ r)
    (hclose : rstrip close = ws ++ r) :
    run (openL :: (interior ++ [close])) =
      .ok [divOpenHtml ++
        rstrip (List.intercalate ['\n'] (interior.map (fun l => l.drop ws.length))) ++
        divCloseHtml] := by
  have hint' : ∀ l ∈ interior, (rstrip l == (ws ++ r)) = false := by
    intro l hl
    rw [beq_eq_false_iff_ne]
    exact hint l hl
  have hclose' : (rstrip close == (ws ++ r)) = true := by
    rw [beq_iff_eq]
    exact hclose
  rw [run, iterLines_cons_ok initSt
      { initSt with inFenceMath := true, expectedClose := ws ++ r, buffer := initSt.buffer ++ [openL] }
      openL [] (interior ++ [close])
      (step_fenceMath_open initSt openL ws r rfl rfl rfl hopen)]
  rw [iterLines_fenceMath_accum interior
      { initSt with inFenceMath := true, expectedClose := ws ++ r, buffer := initSt.buffer ++ [openL] }
      [close] rfl rfl hint']
  rw [iterLines_cons_ok _
      { initSt with inFenceMath := false, expectedClose := ws ++ r, buffer := [] }
      close [encloseFenceBlockMath (((initSt.buffer ++ [openL]) ++ interior) ++ [close])] []
      (step_fenceMath_close _ close rfl rfl hclose')]
  rw [show iterLines { initSt with inFenceMath := false, expectedClose := ws ++ r, buffer := [] } [] = .ok [] from rfl]
  have henc : encloseFenceBlockMath (((initSt.buffer ++ [openL]) ++ interior) ++ [close]) =
      divOpenHtml ++
        rstrip (List.intercalate ['\n'] (interior.map (fun l => l.drop ws.length))) ++
        divCloseHtml := by
    have hbuf : ((initSt.buffer ++ [openL]) ++ interior) ++ [close] = openL :: (interior ++ [close]) := by
      simp [initSt]
    rw [hbuf]
    unfold encloseFenceBlockMath
    have hlen : openL.length - (openL.dropWhile pySpace).length = ws.length := by
      rw [indentLen_eq, codeFenceMathMatch_ws openL ws r hopen]
    simp only [List.headD_cons, List.drop_one, hlen, List.tail_cons, dropLast_append_singleton]
  rw [henc]
  rfl

/-- Witness for C8 at the spec's concrete scenario. -/
theorem claim_c8_fence_math_block_witness :
    run ["```math".data, "x+1=2".data, "```".data] =
      .ok ["<div class=\"math-block\">\\[\nx+1=2\n\\]</div>".data] := by
  rw [show (["```math".data, "x+1=2".data, "```".data] : List (List Char)) =
      "```math".data :: (["x+1=2".data] ++ ["```".data]) from rfl]
  rw [claim_c8_fence_math_block "```math".data "```".data ["x+1=2".data] "".data "```".data
      (by decide) (by decide) (by decide)]
  decide

/-- C9: unterminated constructs degrade to literal passthrough: an
unclosed math fence or bracket block is emitted verbatim at end of
document, and an inline `\(` with no `\)` is left untouched. -/
theorem claim_c9_unterminated_passthrough :
    (∀ (openL : List Char) (interior : List (List Char)) (ws r : List Char),
      codeFenceMathMatch openL = some (ws, r) →
      (∀ l ∈ interior, rstrip l ≠ ws ++ r) →
      run (openL :: interior) = .ok (openL :: interior)) ∧
    (∀ (openL : List Char) (interior : List (List Char)),
      blockMathStart openL = true →
      (∀ l ∈ interior, containsSub l blockMathCloseTok = false) →
      run (openL :: interior) = .ok (openL :: interior)) ∧
    run ["\\(no close".data] = .ok ["\\(no close".data] := by
  refine ⟨?_, ?_, by decide⟩
  · intro openL interior ws r hopen hint
    have hint' : ∀ l ∈ interior, (rstrip l == (ws ++ r)) = false := by
      intro l hl
      rw [beq_eq_false_iff_ne]
      exact hint l hl
    rw [run, iterLines_cons_ok initSt
        { initSt with inFenceMath := true, expectedClose := ws ++ r, buffer := initSt.buffer ++ [openL] }
        openL [] interior
        (step_fenceMath_open initSt openL ws r rfl rfl rfl hopen)]
    rw [show interior = interior ++ ([] : List (List Char)) from (List.append_nil interior).symm]
    rw [iterLines_fenceMath_accum interior
        { initSt with inFenceMath := true, expectedClose := ws ++ r, buffer := initSt.buffer ++ [openL] }
        [] rfl rfl hint']
    rw [show iterLines { initSt with inFenceMath := true, expectedClose := ws ++ r, buffer := (initSt.buffer ++ [openL]) ++ interior } [] = .ok ((initSt.buffer ++ [openL]) ++ interior) from rfl]
    simp [initSt]
  · intro openL interior hopen hint
    rw [run, iterLines_cons_ok initSt
        { initSt with inMathBlock := true, expectedClose := blockMathCloseTok, buffer := initSt.buffer ++ [openL] }
        openL [] interior
        (step_mathBlock_open initSt openL rfl rfl rfl hopen)]
    rw [show interior = interior ++ ([] : List (List Char)) from (List.append_nil interior).symm]
    rw [iterLines_mathBlock_accum interior
        { initSt with inMathBlock := true, expectedClose := blockMathCloseTok, buffer := initSt.buffer ++ [openL] }
        [] rfl rfl rfl hint]
    rw [show iterLines { initSt with inMathBlock := true, expectedClose := blockMathCloseTok, buffer := (initSt.buffer ++ [openL]) ++ interior } [] = .ok ((initSt.buffer ++ [openL]) ++ interior) from rfl]
    simp [initSt]

/-- Witness for C9 at a concrete unterminated math fence. -/
theorem claim_c9_unterminated_passthrough_witness :
    run ["```math".data, "x".data] = .ok ["```math".data, "x".data] := by
  have h := claim_c9_unterminated_passthrough.1 "```math".data ["x".data] "".data "```".data
    (by decide) (by decide)
  simpa using h

/-- C10: a bracket block that closes emits only the lines strictly between
the opening and closing lines, joined by newline and right-trimmed; the
opening line's tail and the whole closing line are discarded. -/
theorem claim_c10_bracket_block_body (openL close : List Char) (interior : List (List Char))
    (hopen : blockMathStart openL = true)
    (hint : ∀ l ∈ interior, containsSub l blockMathCloseTok = false)
    (hclose : containsSub close blockMathCloseTok = true) :
    run (openL :: (interior ++ [close])) =
      .ok [divOpenHtml ++ rstrip (List.intercalate ['\n'] interior) ++ divCloseHtml] := by
  rw [run, iterLines_cons_ok initSt
      { initSt with inMathBlock := true, expectedClose := blockMathCloseTok, buffer := initSt.buffer ++ [openL] }
      openL [] (interior ++ [close])
      (step_mathBlock_open initSt openL rfl rfl rfl hopen)]
  rw [iterLines_mathBlock_accum interior
      { initSt with inMathBlock := true, expectedClose := blockMathCloseTok, buffer := initSt.buffer ++ [openL] }
      [close] rfl rfl rfl hint]
  rw [iterLines_cons_ok _
      { initSt with inMathBlock := false, expectedClose := blockMathCloseTok, buffer := [] }
      close [encloseNonFenceBlockMath (((initSt.buffer ++ [openL]) ++ interior) ++ [close])] []
      (step_mathBlock_close _ close rfl rfl rfl hclose)]
  rw [show iterLines { initSt with inMathBlock := false, expectedClose := blockMathCloseTok, buffer := [] } [] = .ok [] from rfl]
  have henc : encloseNonFenceBlockMath (((initSt.buffer ++ [openL]) ++ interior) ++ [close]) =
      divOpenHtml ++ rstrip (List.intercalate ['\n'] interior) ++ divCloseHtml := by
    have hbuf : ((initSt.buffer ++ [openL]) ++ interior) ++ [close] = openL :: (interior ++ [close]) := by
      simp [initSt]
    rw [hbuf]
    unfold encloseNonFenceBlockMath
    simp only [List.drop_one, List.tail_cons, dropLast_append_singleton]
  rw [henc]
  rfl

/-- Witness for C10: opening-line tail `a` and closing-line text `b`, `c`
are all discarded. -/
theorem claim_c10_bracket_block_body_witness :
    run ["\\[a".data, "x".data, "b\\]c".data] =
      .ok ["<div class=\"math-block\">\\[\nx\n\\]</div>".data] := by
  rw [show (["\\[a".data, "x".data, "b\\]c".data] : List (List Char)) =
      "\\[a".data :: (["x".data] ++ ["b\\]c".data]) from rfl]
  rw [claim_c10_bracket_block_body "\\[a".data "b\\]c".data ["x".data]
      (by decide) (by decide) (by decide)]
  decide

/-- C2 fails on the code: the single line `` $`x` `` makes the inline
scanner evaluate `line[end + 1]` past the end of the line, raising
`IndexError`, so `run` does not return a list of lines. -/
theorem claim_c2_run_raises : run ["$`x`".data] = .error PyErr.indexError := by
  decide

/-- C3 fails on the code: in `` `x`$ `` the code span starts at index 0,
so `line[start - 1]` reads the line's final character (Python negative
indexing); with a `$` after the span the scanner reports a GitLab math
span of start `-1` even though no character precedes the span. -/
theorem claim_c3_negative_index :
    iterInlineKatex "`x`$".data = .ok [⟨-1, 4, "x".data⟩] := by
  decide

/-- C1 counterexample: on the spec's own concrete scenario the wrapper
delimiters come out with doubled backslashes, not single ones. -/
theorem claim_c1_counterexample :
    run ["Formula: \\(E=mc^2\\)".data] =
      .ok ["Formula: <span class=\"math-inline\">\\\\(E=mc^2\\\\)</span>".data] ∧
    "Formula: <span class=\"math-inline\">\\\\(E=mc^2\\\\)</span>".data ≠
      "Formula: <span class=\"math-inline\">\\(E=mc^2\\)</span>".data := by
  exact ⟨by decide, by decide⟩

/-- C1 amended: `escape_backslashes` is applied to the whole wrapped
string, so the wrapper delimiters are emitted as `\\(` and `\\)`; for a
backslash-free body the output is exactly the wrapper with doubled
delimiters around the unchanged body. -/
theorem claim_c1_inline_wrapper :
    (∀ body : List Char, (∀ c ∈ body, c ≠ '\\') →
      encloseInlineMath body =
        "<span class=\"math-inline\">\\\\(".data ++ body ++ "\\\\)</span>".data) ∧
    run ["Formula: \\(E=mc^2\\)".data] =
      .ok ["Formula: <span class=\"math-inline\">\\\\(E=mc^2\\\\)</span>".data] := by
  constructor
  · intro body hb
    unfold encloseInlineMath
    rw [show "<span class=\"math-inline\">\\(".data ++ body ++ "\\)</span>".data =
        "<span class=\"math-inline\">".data ++ ('\\' :: '(' :: (body ++ "\\)</span>".data)) from rfl]
    rw [escape_append_no_bs "<span class=\"math-inline\">".data _ (by decide)]
    rw [escape_bs_escapable '(' (body ++ "\\)</span>".data) (by decide)]
    rw [escape_append_no_bs body "\\)</span>".data hb]
    rw [show escapeBackslashes "\\)</span>".data = "\\\\)</span>".data from by decide]
    rfl
  · decide

/-- Witness for C1's amended statement at the body `E=mc^2`. -/
theorem claim_c1_inline_wrapper_witness :
    encloseInlineMath "E=mc^2".data =
      "<span class=\"math-inline\">\\\\(".data ++ "E=mc^2".data ++ "\\\\)</span>".data :=
  claim_c1_inline_wrapper.1 "E=mc^2".data (by decide)

/-- C4 counterexample: in `\(a`b`c\)` the code-span delimiter sits at
index 3, yet the emitted bracket span runs from 0 to 9, straddling the
code span. -/
theorem claim_c4_counterexample :
    iterInlineKatex "\\(a`b`c\\)".data = .ok [⟨0, 9, "a`b`c".data⟩] ∧
    searchCodeSpanDelim "\\(a`b`c\\)".data 0 = some (3, 4) ∧
    ¬((9 : Int) ≤ 3) := by
  exact ⟨by decide, by decide, by decide⟩

/-- C4 amended: only the opening search is bounded — every span emitted by
the before-code-span loop has its `\(` ending at or before the code
delimiter's start — while the closing `\)` is searched over the whole
line, so a span may extend past the code span, as in `\(a`b`c\)`. -/
theorem claim_c4_opening_bounded :
    (∀ (line : List Char) (searchEnd fuel mathPos : Nat) (items : List InlineMathItem),
      mathScanBounded line searchEnd fuel mathPos = .ok items →
      ∀ it ∈ items, it.start + 2 ≤ (searchEnd : Int)) ∧
    iterInlineKatex "\\(a`b`c\\)".data = .ok [⟨0, 9, "a`b`c".data⟩] := by
  constructor
  · intro line searchEnd fuel
    induction fuel with
    | zero =>
      intro mathPos items h
      rw [mathScanBounded] at h
      simp at h
    | succ f ih =>
      intro mathPos items h
      rw [mathScanBounded] at h
      split at h
      · simp only [Except.ok.injEq] at h
        subst h
        intro it hit
        simp at hit
      · split at h
        · simp only [Except.ok.injEq] at h
          subst h
          intro it hit
          simp at hit
        · rename_i i hfind
          split at h
          · simp only [Except.ok.injEq] at h
            subst h
            intro it hit
            simp at hit
          · rename_i h2
            split at h
            · simp at h
            · rename_i closeTok hcloseTok
              split at h
              · exact ih (i + 2) items h
              · rename_i e hclosefind
                split at h
                · simp at h
                · rename_i rest hrec
                  simp only [Except.ok.injEq] at h
                  subst h
                  intro it hit
                  rcases List.mem_cons.mp hit with h' | h'
                  · subst h'
                    show (i : Int) + 2 ≤ (searchEnd : Int)
                    omega
                  · exact ih (e + 2) rest hrec it h'
  · decide

/-- `CODE_FENCE_MATH_START_RE` matches exactly when `CODE_FENCE_RE`
matches and the literal text `math` immediately follows the fence run. -/
theorem fence_pair (line : List Char) :
    codeFenceMathMatch line =
      match codeFenceMatch line with
      | none => none
      | some pr =>
        if "math".data.isPrefixOf (line.drop (pr.1.length + pr.2.length)) then some pr else none := by
  simp only [codeFenceMathMatch, codeFenceMatch]
  cases hh : (line.drop (line.takeWhile pySpace).length).head? with
  | none => rfl
  | some c =>
    dsimp only
    by_cases hc : (decide (c = backtick) || decide (c = '~')) = true
    · rw [if_pos hc]
      by_cases h3 : 3 ≤ ((line.drop (line.takeWhile pySpace).length).takeWhile (fun d => d = c)).length
      · have hd3 : decide (3 ≤ ((line.drop (line.takeWhile pySpace).length).takeWhile (fun d => d = c)).length) = true := by
          simp [h3]
        rw [hd3, Bool.true_and, if_pos h3, if_pos hc]
        dsimp only
        rw [List.drop_drop, Nat.add_comm]
      · have hd3 : decide (3 ≤ ((line.drop (line.takeWhile pySpace).length).takeWhile (fun d => d = c)).length) = false := by
          simp [h3]
        rw [hd3, Bool.false_and, if_neg h3, if_pos hc]
        simp
    · rw [if_neg hc, if_neg hc]

/-- C5 counterexample: the info string `mathx` is not exactly `math`, yet
the fence opens a math block rather than a verbatim code block. -/
theorem claim_c5_counterexample :
    run ["```mathx".data, "y".data, "```".data] =
      .ok ["<div class=\"math-block\">\\[\ny\n\\]</div>".data] ∧
    (["<div class=\"math-block\">\\[\ny\n\\]</div>".data] : List (List Char)) ≠
      ["```mathx".data, "y".data, "```".data] := by
  exact ⟨by decide, by decide⟩

/-- C5 amended: a fence opens a fenced math block iff its info string
merely *begins* with `math` (the regex has no terminator after `math`). -/
theorem claim_c5_info_starts_math (line ws r : List Char) :
    codeFenceMathMatch line = some (ws, r) ↔
      (codeFenceMatch line = some (ws, r) ∧
        "math".data.isPrefixOf (line.drop (ws.length + r.length)) = true) := by
  rw [fence_pair line]
  cases hcf : codeFenceMatch line with
  | none => simp
  | some pr =>
    dsimp only
    by_cases hp : ("math".data.isPrefixOf (line.drop (pr.1.length + pr.2.length)) = true)
    · rw [if_pos hp]
      constructor
      · intro h
        injection h with h'
        subst h'
        exact ⟨rfl, hp⟩
      · rintro ⟨h1, _⟩
        exact h1
    · rw [if_neg hp]
      constructor
      · intro h
        exact absurd h (by simp)
      · rintro ⟨h1, h2⟩
        injection h1 with h1'
        subst h1'
        exact absurd h2 hp

/-- Witness for C5's amended statement on the info string `mathx`. -/
theorem claim_c5_info_starts_math_witness :
    codeFenceMatch "```mathx".data = some ("".data, "```".data) ∧
    "math".data.isPrefixOf ("```mathx".data.drop ("".data.length + "```".data.length)) = true :=
  (claim_c5_info_starts_math "```mathx".data "".data "```".data).mp (by decide)

/-- Equal indents with runs of different lengths give different close
strings. -/
theorem replicate_append_ne (ws : List Char) (c : Char) (m n : Nat) (h : m ≠ n) :
    ws ++ List.replicate m c ≠ ws ++ List.replicate n c := by
  intro he
  have := congrArg List.length he
  simp at this
  exact h this

/-- C6 counterexample: inside a ```` ```math ```` fence the line `` ```` ``
(same character, more repetitions, alone on its line) does not close the
fence, so the document stays buffered and is flushed verbatim. -/
theorem claim_c6_counterexample :
    run ["```math".data, "a".data, "````".data] =
      .ok ["```math".data, "a".data, "````".data] ∧
    rstrip "````".data = "".data ++ List.replicate 4 backtick ∧
    (Except.ok (["```math".data, "a".data, "````".data] : List (List Char)) : Except PyErr (List (List Char))) ≠
      .ok ["<div class=\"math-block\">\\[\na\n\\]</div>".data] := by
  exact ⟨by decide, by decide, by decide⟩

/-- C6 amended: while inside a fence (plain or math), a line closes the
fence exactly when its right-trimmed text equals the opening indent plus
the opening run *exactly*; a run of the same character with a different
repetition count never closes. -/
theorem claim_c6_fence_close_exact :
    (∀ (st : ScanSt) (line ws : List Char) (c : Char) (n : Nat),
      st.inFence = true → st.expectedClose = ws ++ List.replicate n c →
      ((step st line).map (fun p => p.1.inFence) = .ok false ↔
        rstrip line = ws ++ List.replicate n c)) ∧
    (∀ (st : ScanSt) (line ws : List Char) (c : Char) (n : Nat),
      st.inFence = false → st.inFenceMath = true → st.expectedClose = ws ++ List.replicate n c →
      ((step st line).map (fun p => p.1.inFenceMath) = .ok false ↔
        rstrip line = ws ++ List.replicate n c)) ∧
    (∀ (st : ScanSt) (ws : List Char) (c : Char) (n m : Nat),
      st.inFence = true → st.expectedClose = ws ++ List.replicate n c →
      pySpace c = false → m + 1 ≠ n →
      step st (ws ++ List.replicate (m + 1) c) = .ok (st, [ws ++ List.replicate (m + 1) c])) := by
  refine ⟨?_, ?_, ?_⟩
  · intro st line ws c n hf he
    by_cases hb : (rstrip line == st.expectedClose) = true
    · simp only [step, hf, if_true, hb, if_pos]
      simp only [Except.map]
      rw [beq_iff_eq] at hb
      rw [he] at hb
      simp [hb]
    · simp only [step, hf, if_true, hb]
      simp only [Bool.false_eq_true, if_false, Except.map]
      rw [Bool.not_eq_true] at hb
      rw [beq_eq_false_iff_ne] at hb
      rw [he] at hb
      simp [hf, hb]
  · intro st line ws c n hf hm he
    by_cases hb : (rstrip line == st.expectedClose) = true
    · simp only [step, hf, hm, Bool.false_eq_true, if_false, if_true, hb, if_pos]
      simp only [Except.map]
      rw [beq_iff_eq] at hb
      rw [he] at hb
      simp [hb]
    · simp only [step, hf, hm, Bool.false_eq_true, if_false, if_true, hb]
      simp only [Except.map]
      rw [Bool.not_eq_true] at hb
      rw [beq_eq_false_iff_ne] at hb
      rw [he] at hb
      simp [hm, hb]
  · intro st ws c n m hf he hc hne
    have hr : rstrip (ws ++ List.replicate (m + 1) c) = ws ++ List.replicate (m + 1) c :=
      rstrip_append_replicate ws c m hc
    have hne' : (rstrip (ws ++ List.replicate (m + 1) c) == st.expectedClose) = false := by
      rw [beq_eq_false_iff_ne, hr, he]
      exact replicate_append_ne ws c (m + 1) n hne
    simp only [step, hf, if_true, hne']
    simp

/-- Witness for C6's amended statement: a plain ``` fence closed by an
exactly equal line. -/
theorem claim_c6_fence_close_exact_witness :
    (step ⟨false, true, false, "```".data, []⟩ "```".data).map (fun p => p.1.inFence) =
      .ok false :=
  (claim_c6_fence_close_exact.1 ⟨false, true, false, "```".data, []⟩ "```".data "".data
    backtick 3 rfl (by decide)).mpr (by decide)

/-- C7 counterexample: a `\[` opener preceded by whitespace does not start
a bracket block; the three lines pass through unchanged instead of
collapsing to a wrapped block. -/
theorem claim_c7_counterexample :
    run ["  \\[".data, "x".data, "\\]".data] =
      .ok ["  \\[".data, "x".data, "\\]".data] ∧
    (["  \\[".data, "x".data, "\\]".data] : List (List Char)) ≠
      ["<div class=\"math-block\">\\[\nx\n\\]</div>".data] := by
  exact ⟨by decide, by decide⟩

/-- C7 amended: in the `Normal` state, a non-fence line transitions to
`InBracketBlock` exactly when the literal `\[` is a prefix of the line at
position 0 — leading whitespace is not skipped. -/
theorem claim_c7_block_open_no_indent (st : ScanSt) (line : List Char)
    (h0 : st.inFence = false) (h1 : st.inFenceMath = false) (h2 : st.inMathBlock = false)
    (hf : codeFenceMathMatch line = none) (hg : codeFenceMatch line = none) :
    (step st line).map (fun p => p.1.inMathBlock) = .ok true ↔
      "\\[".data.isPrefixOf line = true := by
  by_cases hb : blockMathStart line = true
  · simp only [step, h0, h1, h2, Bool.false_eq_true, if_false, hf, hg, hb, if_true]
    rw [show delimClose blockMathOpenTok = some blockMathCloseTok from by decide]
    simp only [Except.map]
    unfold blockMathStart blockMathOpenTok at hb
    simp [hb]
  · simp only [step, h0, h1, h2, Bool.false_eq_true, if_false, hf, hg, hb]
    unfold blockMathStart blockMathOpenTok at hb
    rw [Bool.not_eq_true] at hb
    cases hi : iterInlineKatex line with
    | error e =>
      simp [hi, Except.map, hb]
    | ok items =>
      simp [hi, Except.map, h2, hb]

/-- Witness for C7's amended statement: `\[x` at column 0 opens a bracket
block from the initial state. -/
theorem claim_c7_block_open_no_indent_witness :
    (step initSt "\\[x".data).map (fun p => p.1.inMathBlock) = .ok true :=
  (claim_c7_block_open_no_indent initSt "\\[x".data rfl rfl rfl (by decide) (by decide)).mpr
    (by decide)

/-- Witness for C4's amended statement: the span found before the backtick
in `\(x\)` ends within the bounded region. -/
theorem claim_c4_opening_bounded_witness :
    (⟨0, 5, ['x']⟩ : InlineMathItem).start + 2 ≤ ((5 : Nat) : Int) :=
  claim_c4_opening_bounded.1 "\\(x\\)`".data 5 10 0 [⟨0, 5, ['x']⟩] (by decide)
    ⟨0, 5, ['x']⟩ (by decide)
